import Mathlib

/-! # Verification of the frame-processing bridge (native-lib.cpp)

The repository is one JNI function, `Java_com_example_realtime_NativeBridge_processFrame`.
It borrows the bytes of a Java array, runs a fixed sequence of OpenCV calls over them and
hands back a new Java array, or null.

The embedding below keeps the control flow of that function line by line.  The two
things the function talks to are made explicit:

* the JNI environment (`JNIEnv`): whether the element pointer can be obtained and whether
  an array of a given size can be allocated;
* the OpenCV library (`OpenCV`): when a call raises a C++ exception, and the pixel
  arithmetic of grayscale conversion, Gaussian smoothing and Canny detection, which the
  repository does not contain.  Image geometry and the channel layout of the colour
  conversions are fixed by the library interface and are modelled concretely.

The function reads the input through a raw pointer.  A read at an offset outside the
array has no defined behaviour in the source; the embedding gives a call that makes such
a read no result at all (`Outcome.outOfBoundsRead`).

Every effect of the function on the outside world is recorded as an `Event` appended to
a history, so that statements about logging, allocation and release are statements about
that history.
-/

namespace NativeLib

/-! ## Constants of the source file -/

/-- Log tag of the component (line 6). -/
def TAG : String := "NativeLib"

/-- Release mode used at every release site: free the buffer, copy nothing back. -/
def JNI_ABORT : Int := 2

/-- Priority of a log line, the first argument of `__android_log_print`. -/
inductive LogPriority
  | ANDROID_LOG_DEBUG
  | ANDROID_LOG_ERROR
  deriving DecidableEq

/-! ## Machine integers and Java arrays -/

/-- Number of values of a `size_t`. Only its being a multiple of `2 ^ 32` matters. -/
def sizeModulus : Nat := 2 ^ 64

/-- Conversion of an unsigned quantity to a 32-bit `int` (two-complement wrap), as in
`int outLen = outRGBA.total() * outRGBA.elemSize();`. -/
def toInt32 (n : Nat) : Int :=
  if n % 2 ^ 32 < 2 ^ 31 then ((n % 2 ^ 32 : Nat) : Int)
  else ((n % 2 ^ 32 : Nat) : Int) - 2 ^ 32

/-- A Java byte array as the native side sees it: its elements (as unsigned bytes) and the
bound that the length type `jsize`, a 32-bit `int`, puts on every Java array. -/
structure jbyteArray where
  elems : List Nat
  size_lt : elems.length < 2 ^ 31

/-! ## Images -/

/-- An 8-bit image header: `rows`, `cols` are the C++ `int` fields, `channels` the channel
count of the type `CV_8UC(channels)`, `data` the bytes of the dense row-major image that
lie inside the memory block the header points into. -/
structure Mat where
  rows : Int
  cols : Int
  channels : Nat
  data : List Nat
  deriving DecidableEq

/-- Number of pixels, `(size_t)rows * cols`. -/
def Mat.total (m : Mat) : Nat := ((m.rows * m.cols) % (sizeModulus : Int)).toNat

/-- Bytes per pixel of an 8-bit image. -/
def Mat.elemSize (m : Mat) : Nat := m.channels

/-- Pixel count used to lay out the bytes of a `rows x cols` image. -/
def pixelCount (rows cols : Int) : Nat := rows.toNat * cols.toNat

/-- Byte offset of channel `c` of the pixel at row `y`, column `x` in a dense image of the
given width with 4 bytes per pixel (row step `width * 4`, no padding). -/
def pixelOffset (width y x c : Nat) : Nat := y * (width * 4) + x * 4 + c

/-- Bounds-checked read of the byte at offset `k` of an image; `none` is a read outside the
memory block. -/
def Mat.readByte (m : Mat) (k : Nat) : Option Nat := m.data[k]?

/-- The bytes at offsets `0 .. rows * cols * channels - 1`, which a conversion of the image
reads; `none` when one of these offsets lies outside the memory block. -/
def Mat.bytes (m : Mat) : Option (List Nat) :=
  if pixelCount m.rows m.cols * m.channels ≤ m.data.length then
    some (m.data.take (pixelCount m.rows m.cols * m.channels))
  else none

/-- The colour conversions the function asks for. -/
inductive ColorConversionCode
  | COLOR_RGBA2BGR
  | COLOR_BGR2GRAY
  | COLOR_GRAY2RGBA
  deriving DecidableEq

/-- The library calls made between lines 24 and 46, in order of appearance. -/
inductive Step
  | matHeader
  | cvtColor (code : ColorConversionCode)
  | GaussianBlur
  | Canny
  deriving DecidableEq

/-- A C++ exception leaving a library call: the library type `cv::Exception`, or any other
type (for instance `std::bad_alloc`). Both carry the text of `what()`. -/
inductive CxxException
  | cvException (what : String)
  | other (what : String)
  deriving DecidableEq

/-- How a library call ends: with a value, with a C++ exception, or in a read outside the
memory it was given. -/
inductive Call (α : Type)
  | ok (a : α)
  | error (e : CxxException)
  | outOfBounds

/-- The part of OpenCV the repository does not contain.
`raises` says whether a call raises on a given source image (resource exhaustion, an
internal check); the other fields are the per-pixel arithmetic of the three filters. -/
structure OpenCV where
  raises : Step → Mat → Option CxxException
  luma : Nat → Nat → Nat → Nat
  blur : Nat × Nat → ℚ → Mat → Nat → Nat
  canny : ℚ → ℚ → Mat → Nat → Nat

/-- Image header over caller memory, `cv::Mat(rows, cols, CV_8UC(channels), ptr)`: no copy.
The image is the bytes at `ptr[0] .. ptr[rows * cols * channels - 1]`; those of them that
exist in the block `ptr` points to are the `data` of the header. -/
def Mat.ofPointer (rows cols : Int) (channels : Nat) (block : List Nat) : Mat :=
  { rows := rows, cols := cols, channels := channels,
    data := block.take (pixelCount rows cols * channels) }

/-- Store of a filter result into an 8-bit pixel, `saturate_cast<uchar>`. -/
def toByte (v : Nat) : Nat := min v 255

/-- Model of `cv::cvtColor(src, dst, code)` for the three codes used.
The destination has the size of the source.  RGBA2BGR drops alpha and swaps the first and
third channel; BGR2GRAY applies the library luma function to (b, g, r); GRAY2RGBA copies
the gray value into the three colour channels and sets the added alpha channel to the
maximum of the channel range, 255 for 8-bit images (OpenCV reference, colour conversions:
"Gray to RGB[A]: R <- Y, G <- Y, B <- Y, A <- max(ChannelRange)").  The conversion reads
every byte of the source image. -/
def cvtColor (cv : OpenCV) (src : Mat) (code : ColorConversionCode) : Call Mat :=
  match cv.raises (.cvtColor code) src with
  | some e => .error e
  | none =>
    if src.rows ≤ 0 ∨ src.cols ≤ 0 then
      .error (.cvException "(-215:Assertion failed) !_src.empty() in function cvtColor")
    else
      let n := pixelCount src.rows src.cols
      let scn := src.channels
      match code with
      | .COLOR_RGBA2BGR =>
        if scn = 3 ∨ scn = 4 then
          match src.bytes with
          | none => .outOfBounds
          | some px =>
            .ok { rows := src.rows, cols := src.cols, channels := 3,
                  data := (List.range (n * 3)).map
                    (fun k => px.getD (scn * (k / 3) + (2 - k % 3)) 0) }
        else .error (.cvException "(-2:Unspecified error) Invalid number of channels in input image")
      | .COLOR_BGR2GRAY =>
        if scn = 3 ∨ scn = 4 then
          match src.bytes with
          | none => .outOfBounds
          | some px =>
            .ok { rows := src.rows, cols := src.cols, channels := 1,
                  data := (List.range n).map
                    (fun i => toByte (cv.luma (px.getD (scn * i) 0)
                      (px.getD (scn * i + 1) 0) (px.getD (scn * i + 2) 0))) }
        else .error (.cvException "(-2:Unspecified error) Invalid number of channels in input image")
      | .COLOR_GRAY2RGBA =>
        if scn = 1 then
          match src.bytes with
          | none => .outOfBounds
          | some px =>
            .ok { rows := src.rows, cols := src.cols, channels := 4,
                  data := (List.range (n * 4)).map
                    (fun k => if k % 4 < 3 then px.getD (k / 4) 0 else 255) }
        else .error (.cvException "(-2:Unspecified error) Invalid number of channels in input image")

/-- Model of `cv::GaussianBlur(src, dst, ksize, sigmaX)`: same size and type as the source,
pixel values given by the library. -/
def GaussianBlur (cv : OpenCV) (src : Mat) (ksize : Nat × Nat) (sigmaX : ℚ) : Call Mat :=
  match cv.raises .GaussianBlur src with
  | some e => .error e
  | none =>
    .ok { rows := src.rows, cols := src.cols, channels := src.channels,
          data := (List.range (pixelCount src.rows src.cols * src.channels)).map
            (fun k => toByte (cv.blur ksize sigmaX src k)) }

/-- Model of `cv::Canny(image, edges, threshold1, threshold2)`: a single-channel 8-bit map
of the size of the source, pixel values given by the library. -/
def Canny (cv : OpenCV) (image : Mat) (threshold1 threshold2 : ℚ) : Call Mat :=
  match cv.raises .Canny image with
  | some e => .error e
  | none =>
    .ok { rows := image.rows, cols := image.cols, channels := 1,
          data := (List.range (pixelCount image.rows image.cols)).map
            (fun k => toByte (cv.canny threshold1 threshold2 image k)) }

/-! ## The JNI environment -/

/-- What the Java runtime decides for one call. -/
structure JNIEnv where
  /-- Whether `GetByteArrayElements` hands out a pointer. -/
  elementsAvailable : Bool
  /-- Whether an array of the given length can be allocated. -/
  canAllocate : Nat → Bool

/-- An effect of the function on the outside world. -/
inductive Event
  | GetArrayLength
  | GetByteArrayElements
  | android_log_print (prio : LogPriority) (tag msg : String)
  | cvCall (step : Step)
  | NewByteArray (len : Int)
  | SetByteArrayRegion (start len : Int)
  | ReleaseByteArrayElements (mode : Int)
  deriving DecidableEq

/-- The define of line 7: a debug line under the component tag. The function never uses it. -/
def LOGD (msg : String) : Event := .android_log_print .ANDROID_LOG_DEBUG TAG msg

/-- The define of line 8: an error line under the component tag. -/
def LOGE (msg : String) : Event := .android_log_print .ANDROID_LOG_ERROR TAG msg

/-- The bridge returned (an array, or null), or a C++ exception left it, or it read outside
the memory it was given, after which the source has no defined behaviour. -/
inductive Outcome
  | returned (result : Option (List Nat))
  | propagated (e : CxxException)
  | outOfBoundsRead
  deriving DecidableEq

/-- Result of one call: what the caller gets and the history of effects so far. -/
structure Run where
  outcome : Outcome
  history : List Event
  deriving DecidableEq

/-- Length of a Java array, `env->GetArrayLength(input_)`, a `jsize`. -/
def GetArrayLength (input_ : jbyteArray) : Int := (input_.elems.length : Int)

/-- Pointer to the elements, `env->GetByteArrayElements(input_, NULL)`, or null.  The pointer
is modelled by the memory block it points to, the elements of the array. -/
def GetByteArrayElements (env : JNIEnv) (input_ : jbyteArray) : Option (List Nat) :=
  if env.elementsAvailable then some input_.elems else none

/-- Allocation of a zero-filled array, `env->NewByteArray(len)`; null for a negative length
or when the runtime cannot allocate. -/
def NewByteArray (env : JNIEnv) (len : Int) : Option (List Nat) :=
  if 0 ≤ len ∧ env.canAllocate len.toNat = true then some (List.replicate len.toNat 0) else none

/-- How `SetByteArrayRegion` ends: the region was copied, or the region does not lie in the
array (the runtime rejects it and leaves the array untouched), or the native buffer holds
fewer bytes than were to be copied. -/
inductive RegionResult
  | copied (arr : List Nat)
  | arrayIndexOutOfBounds
  | outOfBoundsRead
  deriving DecidableEq

/-- Copy of `len` bytes of `buf` into `arr` from index `start`,
`env->SetByteArrayRegion(arr, start, len, buf)`. -/
def SetByteArrayRegion (arr : List Nat) (start len : Int) (buf : List Nat) : RegionResult :=
  if 0 ≤ start ∧ 0 ≤ len ∧ start + len ≤ (arr.length : Int) then
    if len.toNat ≤ buf.length then
      .copied (arr.take start.toNat ++ buf.take len.toNat
        ++ arr.drop (start.toNat + len.toNat))
    else .outOfBoundsRead
  else .arrayIndexOutOfBounds

/-! ## The function -/

/-- Lines 24-42: from the input pointer to the edge map.  Returns the library calls that
were made and how the sequence ended. -/
def edgeMap (cv : OpenCV) (input : List Nat) (width height : Int) : List Step × Call Mat :=
  let imgRGBA := Mat.ofPointer height width 4 input
  match cv.raises .matHeader imgRGBA with
  | some e => ([.matHeader], .error e)
  | none =>
  match cvtColor cv imgRGBA .COLOR_RGBA2BGR with
  | .error e => ([.matHeader, .cvtColor .COLOR_RGBA2BGR], .error e)
  | .outOfBounds => ([.matHeader, .cvtColor .COLOR_RGBA2BGR], .outOfBounds)
  | .ok imgBGR =>
  match cvtColor cv imgBGR .COLOR_BGR2GRAY with
  | .error e =>
    ([.matHeader, .cvtColor .COLOR_RGBA2BGR, .cvtColor .COLOR_BGR2GRAY], .error e)
  | .outOfBounds =>
    ([.matHeader, .cvtColor .COLOR_RGBA2BGR, .cvtColor .COLOR_BGR2GRAY], .outOfBounds)
  | .ok gray =>
  match GaussianBlur cv gray (5, 5) (3 / 2) with
  | .error e =>
    ([.matHeader, .cvtColor .COLOR_RGBA2BGR, .cvtColor .COLOR_BGR2GRAY, .GaussianBlur],
      .error e)
  | .outOfBounds =>
    ([.matHeader, .cvtColor .COLOR_RGBA2BGR, .cvtColor .COLOR_BGR2GRAY, .GaussianBlur],
      .outOfBounds)
  | .ok blurred =>
  let lowThresh : ℚ := 50
  let highThresh : ℚ := 150
  ([.matHeader, .cvtColor .COLOR_RGBA2BGR, .cvtColor .COLOR_BGR2GRAY, .GaussianBlur, .Canny],
    Canny cv blurred lowThresh highThresh)

/-- Lines 24-46: the edge map, then its conversion to RGBA (lines 44-46). -/
def pipeline (cv : OpenCV) (input : List Nat) (width height : Int) : List Step × Call Mat :=
  match edgeMap cv input width height with
  | (steps, .ok edges) =>
    (steps ++ [.cvtColor .COLOR_GRAY2RGBA], cvtColor cv edges .COLOR_GRAY2RGBA)
  | (steps, .error e) => (steps, .error e)
  | (steps, .outOfBounds) => (steps, .outOfBounds)

/-- Line 49: `int outLen = outRGBA.total() * outRGBA.elemSize();`, a `size_t` product
narrowed to `int`. -/
def outLenOf (outRGBA : Mat) : Int :=
  toInt32 ((outRGBA.total * outRGBA.elemSize) % sizeModulus)

/-- The bridge function, lines 12-67.  `past` is the history of effects before the call;
the history of the result extends it. -/
def Java_com_example_realtime_NativeBridge_processFrame (env : JNIEnv) (cv : OpenCV)
    (input_ : jbyteArray) (width height : Int) (past : List Event) : Run :=
  let _len := GetArrayLength input_
  let h1 := past ++ [.GetArrayLength, .GetByteArrayElements]
  match GetByteArrayElements env input_ with
  | none =>
    { outcome := .returned none,
      history := h1 ++ [LOGE "Failed to get input array elements"] }
  | some input =>
    let p := pipeline cv input width height
    let h2 := h1 ++ p.1.map Event.cvCall
    match p.2 with
    | .error (.cvException what) =>
      { outcome := .returned none,
        history := h2 ++ [LOGE ("OpenCV exception: " ++ what),
                          .ReleaseByteArrayElements JNI_ABORT] }
    | .error (.other what) =>
      { outcome := .propagated (.other what), history := h2 }
    | .outOfBounds =>
      { outcome := .outOfBoundsRead, history := h2 }
    | .ok outRGBA =>
      let outLen := outLenOf outRGBA
      match NewByteArray env outLen with
      | none =>
        { outcome := .returned none,
          history := h2 ++ [.NewByteArray outLen,
                            LOGE "Failed to allocate output array",
                            .ReleaseByteArrayElements JNI_ABORT] }
      | some outArr =>
        match SetByteArrayRegion outArr 0 outLen outRGBA.data with
        | .outOfBoundsRead =>
          { outcome := .outOfBoundsRead,
            history := h2 ++ [.NewByteArray outLen, .SetByteArrayRegion 0 outLen] }
        | .arrayIndexOutOfBounds =>
          { outcome := .returned (some outArr),
            history := h2 ++ [.NewByteArray outLen, .SetByteArrayRegion 0 outLen,
                              .ReleaseByteArrayElements JNI_ABORT] }
        | .copied filled =>
          { outcome := .returned (some filled),
            history := h2 ++ [.NewByteArray outLen, .SetByteArrayRegion 0 outLen,
                              .ReleaseByteArrayElements JNI_ABORT] }

/-! ## Observations on a history -/

/-- The log lines of a history, oldest first. -/
def logLines : List Event → List (LogPriority × String × String)
  | [] => []
  | .android_log_print p t m :: es => (p, t, m) :: logLines es
  | _ :: es => logLines es

/-- Number of releases of the input buffer in a history. -/
def releaseCount : List Event → Nat
  | [] => 0
  | .ReleaseByteArrayElements _ :: es => releaseCount es + 1
  | _ :: es => releaseCount es

/-- Number of output allocations requested in a history. -/
def allocCount : List Event → Nat
  | [] => 0
  | .NewByteArray _ :: es => allocCount es + 1
  | _ :: es => allocCount es

/-- Number of library calls in a history. -/
def cvCallCount : List Event → Nat
  | [] => 0
  | .cvCall _ :: es => cvCallCount es + 1
  | _ :: es => cvCallCount es

/-! ## Sample environments, used to evaluate the function on concrete frames -/

/-- A runtime that grants every request. -/
def JNIEnv.granting : JNIEnv :=
  { elementsAvailable := true, canAllocate := fun _ => true }

/-- A runtime that cannot hand out the element pointer. -/
def JNIEnv.noElements : JNIEnv :=
  { elementsAvailable := false, canAllocate := fun _ => true }

/-- A runtime that cannot allocate the output array. -/
def JNIEnv.noMemory : JNIEnv :=
  { elementsAvailable := true, canAllocate := fun _ => false }

/-- A frame of one pixel. -/
def jbyteArray.pixel : jbyteArray := ⟨[10, 20, 30, 255], by decide⟩

/-- A 2 x 2 frame of one colour. -/
def jbyteArray.flat : jbyteArray :=
  ⟨[10, 20, 30, 255, 10, 20, 30, 255, 10, 20, 30, 255, 10, 20, 30, 255], by decide⟩

/-- A 2 x 2 frame with a black left column and a white right column. -/
def jbyteArray.split : jbyteArray :=
  ⟨[0, 0, 0, 255, 255, 255, 255, 255, 0, 0, 0, 255, 255, 255, 255, 255], by decide⟩

/-- A library that never raises, with integer luma weights, a smoothing that keeps the
centre sample and a detector that reports no edge.  It stands for the library on a frame
that holds no edge, such as a frame of a single colour. -/
def OpenCV.quiet : OpenCV :=
  { raises := fun _ _ => none
    luma := fun b g r => (b * 1868 + g * 9617 + r * 4899 + 8192) / 16384
    blur := fun _ _ src k => src.data.getD k 0
    canny := fun _ _ _ _ => 0 }

/-- A library like `OpenCV.quiet` whose detector marks the pixels of smoothed intensity 128
or more; it gives an edge map with both marked and unmarked pixels to evaluate on. -/
def OpenCV.marking : OpenCV :=
  { OpenCV.quiet with
    canny := fun _ _ image k => if 128 ≤ image.data.getD k 0 then 255 else 0 }

/-- A library whose Canny call raises `cv::Exception` with the given text. -/
def OpenCV.cannyFails (what : String) : OpenCV :=
  { OpenCV.quiet with
    raises := fun s _ => if s = .Canny then some (.cvException what) else none }

/-- A library whose Canny call raises an exception that is not a `cv::Exception`. -/
def OpenCV.cannyBadAlloc : OpenCV :=
  { OpenCV.quiet with
    raises := fun s _ => if s = .Canny then some (.other "std::bad_alloc") else none }

/-! ## Shape of the library results -/

theorem Mat.bytes_eq_some {m : Mat} {px : List Nat} (h : m.bytes = some px) :
    pixelCount m.rows m.cols * m.channels ≤ m.data.length ∧
    px = m.data.take (pixelCount m.rows m.cols * m.channels) := by
  unfold Mat.bytes at h
  split at h
  · rename_i hle
    cases h
    exact ⟨hle, rfl⟩
  · cases h

theorem Mat.bytes_of_le {m : Mat}
    (h : pixelCount m.rows m.cols * m.channels ≤ m.data.length) :
    m.bytes = some (m.data.take (pixelCount m.rows m.cols * m.channels)) := by
  unfold Mat.bytes
  rw [if_pos h]

theorem Mat.bytes_of_lt {m : Mat}
    (h : m.data.length < pixelCount m.rows m.cols * m.channels) : m.bytes = none := by
  unfold Mat.bytes
  rw [if_neg (by omega)]

/-- A completed conversion: the source is not empty, all of it was read inside its memory
block, and the destination has the size of the source and the channel count of the code. -/
theorem cvtColor_ok {cv : OpenCV} {src dst : Mat} {code : ColorConversionCode}
    (h : cvtColor cv src code = .ok dst) :
    0 < src.rows ∧ 0 < src.cols ∧ dst.rows = src.rows ∧ dst.cols = src.cols ∧
    pixelCount src.rows src.cols * src.channels ≤ src.data.length ∧
    dst.data.length = pixelCount src.rows src.cols * dst.channels ∧
    dst.channels = (match code with
      | .COLOR_RGBA2BGR => 3
      | .COLOR_BGR2GRAY => 1
      | .COLOR_GRAY2RGBA => 4) := by
  unfold cvtColor at h
  split at h
  · cases h
  · split at h
    · cases h
    · rename_i hpos
      push_neg at hpos
      cases code <;> simp only at h <;> split at h
      all_goals first
        | cases h
        | (split at h
           · cases h
           · rename_i px hpx
             cases h
             exact ⟨hpos.1, hpos.2, rfl, rfl, (Mat.bytes_eq_some hpx).1, by simp, rfl⟩)

/-- The bytes written by the conversion of a single-channel image to RGBA. -/
theorem cvtColor_gray2rgba {cv : OpenCV} {src dst : Mat}
    (h : cvtColor cv src .COLOR_GRAY2RGBA = .ok dst) :
    src.channels = 1 ∧
    dst.data = (List.range (pixelCount src.rows src.cols * 4)).map
      (fun k => if k % 4 < 3 then src.data.getD (k / 4) 0 else 255) := by
  unfold cvtColor at h
  split at h
  · cases h
  · split at h
    · cases h
    · simp only at h
      split at h
      · rename_i hch
        split at h
        · cases h
        · rename_i px hpx
          cases h
          refine ⟨hch, ?_⟩
          simp only
          apply List.map_congr_left
          intro k hk
          have hk2 : k < pixelCount src.rows src.cols * 4 := List.mem_range.mp hk
          have hpx2 := (Mat.bytes_eq_some hpx).2
          rw [hch, Nat.mul_one] at hpx2
          split
          · have hlt : k / 4 < pixelCount src.rows src.cols := by omega
            rw [hpx2]
            simp [List.getD_eq_getElem?_getD, List.getElem?_take, hlt]
          · rfl
      · cases h

theorem GaussianBlur_ok {cv : OpenCV} {src dst : Mat} {ksize : Nat × Nat} {sigmaX : ℚ}
    (h : GaussianBlur cv src ksize sigmaX = .ok dst) :
    dst.rows = src.rows ∧ dst.cols = src.cols ∧ dst.channels = src.channels := by
  unfold GaussianBlur at h
  split at h
  · cases h
  · cases h; exact ⟨rfl, rfl, rfl⟩

theorem GaussianBlur_ne_outOfBounds (cv : OpenCV) (src : Mat) (ksize : Nat × Nat) (sigmaX : ℚ) :
    GaussianBlur cv src ksize sigmaX ≠ .outOfBounds := by
  unfold GaussianBlur
  split <;> simp

theorem Canny_ok {cv : OpenCV} {src dst : Mat} {t1 t2 : ℚ}
    (h : Canny cv src t1 t2 = .ok dst) :
    dst.rows = src.rows ∧ dst.cols = src.cols ∧ dst.channels = 1 ∧
    dst.data.length = pixelCount src.rows src.cols := by
  unfold Canny at h
  split at h
  · cases h
  · cases h; exact ⟨rfl, rfl, rfl, by simp⟩

theorem Canny_ne_outOfBounds (cv : OpenCV) (src : Mat) (t1 t2 : ℚ) :
    Canny cv src t1 t2 ≠ .outOfBounds := by
  unfold Canny
  split <;> simp

/-- A conversion whose source lies inside its memory block does not read outside it. -/
theorem cvtColor_ne_outOfBounds (cv : OpenCV) {src : Mat} (code : ColorConversionCode)
    (h : pixelCount src.rows src.cols * src.channels ≤ src.data.length) :
    cvtColor cv src code ≠ .outOfBounds := by
  unfold cvtColor
  rw [Mat.bytes_of_le h]
  split
  · simp
  · split
    · simp
    · cases code <;> simp only <;> split <;> simp

theorem Mat.ofPointer_length_le {rows cols : Int} {channels : Nat} {block : List Nat}
    (h : pixelCount rows cols * channels ≤ (Mat.ofPointer rows cols channels block).data.length) :
    pixelCount rows cols * channels ≤ block.length := by
  simp only [Mat.ofPointer, List.length_take] at h
  omega

/-- A completed edge detection: the dimensions are positive, the frame lies inside the
input block, and the edge map is the single-channel result of the Canny call of line 42. -/
theorem edgeMap_ok {cv : OpenCV} {input : List Nat} {width height : Int} {edges : Mat}
    (h : (edgeMap cv input width height).2 = .ok edges) :
    0 < height ∧ 0 < width ∧ edges.rows = height ∧ edges.cols = width ∧
    edges.channels = 1 ∧ edges.data.length = pixelCount height width ∧
    pixelCount height width * 4 ≤ input.length ∧
    ∃ blurred, Canny cv blurred 50 150 = .ok edges := by
  unfold edgeMap at h
  simp only at h
  split at h
  · cases h
  · split at h
    · cases h
    · cases h
    · rename_i imgBGR h1
      split at h
      · cases h
      · cases h
      · rename_i gray h2
        split at h
        · cases h
        · cases h
        · rename_i blurred h3
          simp only at h
          have s1 := cvtColor_ok h1
          have s2 := cvtColor_ok h2
          have s3 := GaussianBlur_ok h3
          have s4 := Canny_ok h
          simp only [Mat.ofPointer] at s1
          have br : blurred.rows = height := by rw [s3.1, s2.2.2.1, s1.2.2.1]
          have bc : blurred.cols = width := by rw [s3.2.1, s2.2.2.2.1, s1.2.2.2.1]
          refine ⟨s1.1, s1.2.1, ?_, ?_, s4.2.2.1, ?_, ?_, blurred, h⟩
          · rw [s4.1, br]
          · rw [s4.2.1, bc]
          · rw [s4.2.2.2, br, bc]
          · have := s1.2.2.2.2.1
            simp only [List.length_take] at this
            omega

/-- A completed pipeline is a completed edge detection followed by the conversion of the
edge map to RGBA. -/
theorem pipeline_ok {cv : OpenCV} {input : List Nat} {width height : Int} {out : Mat}
    (h : (pipeline cv input width height).2 = .ok out) :
    ∃ edges, (edgeMap cv input width height).2 = .ok edges ∧
      cvtColor cv edges .COLOR_GRAY2RGBA = .ok out := by
  unfold pipeline at h
  split at h
  · rename_i steps edges heq
    exact ⟨edges, by rw [heq], h⟩
  · cases h
  · cases h

theorem pipeline_ok_shape {cv : OpenCV} {input : List Nat} {width height : Int} {out : Mat}
    (h : (pipeline cv input width height).2 = .ok out) :
    0 < height ∧ 0 < width ∧ out.rows = height ∧ out.cols = width ∧ out.channels = 4 ∧
    out.data.length = pixelCount height width * 4 ∧
    pixelCount height width * 4 ≤ input.length := by
  obtain ⟨edges, he, hc⟩ := pipeline_ok h
  obtain ⟨hh, hw, er, ec, -, -, hin, -⟩ := edgeMap_ok he
  obtain ⟨-, -, r, c, -, hl, hch⟩ := cvtColor_ok hc
  simp only at hch
  refine ⟨hh, hw, by rw [r, er], by rw [c, ec], hch, ?_, hin⟩
  rw [hl, hch, er, ec]


/-! ## Arithmetic of the output length -/

theorem toInt32_congr {m n : Nat} (h : m % 2 ^ 32 = n % 2 ^ 32) : toInt32 m = toInt32 n := by
  unfold toInt32
  rw [h]

theorem toInt32_of_lt {n : Nat} (h : n < 2 ^ 31) : toInt32 n = (n : Int) := by
  have h1 : n % 2 ^ 32 = n := Nat.mod_eq_of_lt (by omega)
  unfold toInt32
  rw [h1, if_pos h]

theorem toInt32_le (n : Nat) : toInt32 n ≤ (n : Int) := by
  unfold toInt32
  have h1 : n % 2 ^ 32 ≤ n := Nat.mod_le _ _
  split <;> omega

theorem pixelCount_mul_four {width height : Int} (hh : 0 < height) (hw : 0 < width) :
    ((pixelCount height width * 4 : Nat) : Int) = width * height * 4 := by
  obtain ⟨a, rfl⟩ := Int.eq_ofNat_of_zero_le hh.le
  obtain ⟨b, rfl⟩ := Int.eq_ofNat_of_zero_le hw.le
  simp only [pixelCount, Int.toNat_ofNat]
  push_cast
  ring

/-- Line 49 on an image of the requested size: the byte count of the frame narrowed to
`int`. -/
theorem outLenOf_eq {out : Mat} {width height : Int} (hr : out.rows = height)
    (hc : out.cols = width) (hch : out.channels = 4) (hh : 0 < height) (hw : 0 < width) :
    outLenOf out = toInt32 (pixelCount height width * 4) := by
  obtain ⟨a, rfl⟩ := Int.eq_ofNat_of_zero_le hh.le
  obtain ⟨b, rfl⟩ := Int.eq_ofNat_of_zero_le hw.le
  unfold outLenOf Mat.total Mat.elemSize sizeModulus
  rw [hr, hc, hch]
  apply toInt32_congr
  have e1 : ((a : Int) * (b : Int)) % ((2 ^ 64 : Nat) : Int) = ((a * b % 2 ^ 64 : Nat) : Int) := by
    push_cast; rfl
  rw [e1, Int.toNat_ofNat]
  simp only [pixelCount, Int.toNat_ofNat]
  generalize a * b = N
  omega

/-- When the frame is shorter than `2 ^ 31` bytes, line 49 computes its byte count. -/
theorem outLenOf_of_fit {out : Mat} {width height : Int} (hr : out.rows = height)
    (hc : out.cols = width) (hch : out.channels = 4) (hh : 0 < height) (hw : 0 < width)
    (hfit : pixelCount height width * 4 < 2 ^ 31) :
    outLenOf out = ((pixelCount height width * 4 : Nat) : Int) := by
  rw [outLenOf_eq hr hc hch hh hw, toInt32_of_lt hfit]

/-! ## The paths through the function -/

theorem NewByteArray_some {env : JNIEnv} {len : Int} {arr : List Nat}
    (h : NewByteArray env len = some arr) :
    0 ≤ len ∧ env.canAllocate len.toNat = true ∧ arr = List.replicate len.toNat 0 := by
  unfold NewByteArray at h
  split at h
  · rename_i hc
    cases h
    exact ⟨hc.1, hc.2, rfl⟩
  · cases h

/-- The copy of line 58 into the array allocated at line 50, from a buffer that holds the
bytes to copy, covers the whole array and stays inside it. -/
theorem SetByteArrayRegion_fresh {len : Int} (h : 0 ≤ len) {buf : List Nat}
    (hb : len.toNat ≤ buf.length) :
    SetByteArrayRegion (List.replicate len.toNat 0) 0 len buf =
      .copied (buf.take len.toNat) := by
  unfold SetByteArrayRegion
  have hc : (0 : Int) ≤ 0 ∧ 0 ≤ len ∧
      0 + len ≤ ((List.replicate len.toNat 0 : List Nat).length : Int) := by
    refine ⟨le_refl _, h, ?_⟩
    rw [List.length_replicate]
    omega
  rw [if_pos hc, if_pos hb]
  simp

/-- The number of bytes line 58 copies never exceeds what the RGBA image holds. -/
theorem outLenOf_le_data {cv : OpenCV} {input : List Nat} {width height : Int} {out : Mat}
    (hp : (pipeline cv input width height).2 = .ok out) :
    (outLenOf out).toNat ≤ out.data.length := by
  obtain ⟨hh, hw, hr, hc, hch, hl, -⟩ := pipeline_ok_shape hp
  rw [outLenOf_eq hr hc hch hh hw, hl]
  have := toInt32_le (pixelCount height width * 4)
  omega

theorem processFrame_noElements {env : JNIEnv} (cv : OpenCV) (input_ : jbyteArray)
    (width height : Int) (past : List Event) (h : env.elementsAvailable = false) :
    Java_com_example_realtime_NativeBridge_processFrame env cv input_ width height past =
      { outcome := .returned none,
        history := past ++ [.GetArrayLength, .GetByteArrayElements] ++
          [LOGE "Failed to get input array elements"] } := by
  simp [Java_com_example_realtime_NativeBridge_processFrame, GetByteArrayElements, h]

theorem processFrame_cvException {env : JNIEnv} {cv : OpenCV} {input_ : jbyteArray}
    {width height : Int} (past : List Event) {what : String}
    (h : env.elementsAvailable = true)
    (hp : (pipeline cv input_.elems width height).2 = .error (.cvException what)) :
    Java_com_example_realtime_NativeBridge_processFrame env cv input_ width height past =
      { outcome := .returned none,
        history := past ++ [.GetArrayLength, .GetByteArrayElements] ++
          (pipeline cv input_.elems width height).1.map Event.cvCall ++
          [LOGE ("OpenCV exception: " ++ what),
           .ReleaseByteArrayElements JNI_ABORT] } := by
  simp [Java_com_example_realtime_NativeBridge_processFrame, GetByteArrayElements, h, hp]

theorem processFrame_otherException {env : JNIEnv} {cv : OpenCV} {input_ : jbyteArray}
    {width height : Int} (past : List Event) {what : String}
    (h : env.elementsAvailable = true)
    (hp : (pipeline cv input_.elems width height).2 = .error (.other what)) :
    Java_com_example_realtime_NativeBridge_processFrame env cv input_ width height past =
      { outcome := .propagated (.other what),
        history := past ++ [.GetArrayLength, .GetByteArrayElements] ++
          (pipeline cv input_.elems width height).1.map Event.cvCall } := by
  simp [Java_com_example_realtime_NativeBridge_processFrame, GetByteArrayElements, h, hp]

theorem processFrame_outOfBounds {env : JNIEnv} {cv : OpenCV} {input_ : jbyteArray}
    {width height : Int} (past : List Event)
    (h : env.elementsAvailable = true)
    (hp : (pipeline cv input_.elems width height).2 = .outOfBounds) :
    Java_com_example_realtime_NativeBridge_processFrame env cv input_ width height past =
      { outcome := .outOfBoundsRead,
        history := past ++ [.GetArrayLength, .GetByteArrayElements] ++
          (pipeline cv input_.elems width height).1.map Event.cvCall } := by
  simp [Java_com_example_realtime_NativeBridge_processFrame, GetByteArrayElements, h, hp]

theorem processFrame_noMemory {env : JNIEnv} {cv : OpenCV} {input_ : jbyteArray}
    {width height : Int} (past : List Event) {out : Mat}
    (h : env.elementsAvailable = true)
    (hp : (pipeline cv input_.elems width height).2 = .ok out)
    (ha : NewByteArray env (outLenOf out) = none) :
    Java_com_example_realtime_NativeBridge_processFrame env cv input_ width height past =
      { outcome := .returned none,
        history := past ++ [.GetArrayLength, .GetByteArrayElements] ++
          (pipeline cv input_.elems width height).1.map Event.cvCall ++
          [.NewByteArray (outLenOf out),
           LOGE "Failed to allocate output array",
           .ReleaseByteArrayElements JNI_ABORT] } := by
  simp [Java_com_example_realtime_NativeBridge_processFrame, GetByteArrayElements, h, hp, ha]

theorem processFrame_success {env : JNIEnv} {cv : OpenCV} {input_ : jbyteArray}
    {width height : Int} (past : List Event) {out : Mat} {outArr : List Nat}
    (h : env.elementsAvailable = true)
    (hp : (pipeline cv input_.elems width height).2 = .ok out)
    (ha : NewByteArray env (outLenOf out) = some outArr) :
    Java_com_example_realtime_NativeBridge_processFrame env cv input_ width height past =
      { outcome := .returned (some (out.data.take (outLenOf out).toNat)),
        history := past ++ [.GetArrayLength, .GetByteArrayElements] ++
          (pipeline cv input_.elems width height).1.map Event.cvCall ++
          [.NewByteArray (outLenOf out), .SetByteArrayRegion 0 (outLenOf out),
           .ReleaseByteArrayElements JNI_ABORT] } := by
  obtain ⟨h0, _, rfl⟩ := NewByteArray_some ha
  simp [Java_com_example_realtime_NativeBridge_processFrame, GetByteArrayElements, h, hp, ha,
    SetByteArrayRegion_fresh h0 (outLenOf_le_data hp)]

/-- Every call takes exactly one of the six paths. -/
theorem processFrame_paths (env : JNIEnv) (cv : OpenCV) (input_ : jbyteArray)
    (width height : Int) :
    env.elementsAvailable = false ∨
    (env.elementsAvailable = true ∧
      ((∃ what, (pipeline cv input_.elems width height).2 = .error (.cvException what)) ∨
       (∃ what, (pipeline cv input_.elems width height).2 = .error (.other what)) ∨
       (pipeline cv input_.elems width height).2 = .outOfBounds ∨
       (∃ out, (pipeline cv input_.elems width height).2 = .ok out ∧
          NewByteArray env (outLenOf out) = none) ∨
       (∃ out outArr, (pipeline cv input_.elems width height).2 = .ok out ∧
          NewByteArray env (outLenOf out) = some outArr))) := by
  cases he : env.elementsAvailable with
  | false => exact Or.inl rfl
  | true =>
    refine Or.inr ⟨rfl, ?_⟩
    cases hp : (pipeline cv input_.elems width height).2 with
    | error e =>
      cases e with
      | cvException what => exact Or.inl ⟨what, rfl⟩
      | other what => exact Or.inr (Or.inl ⟨what, rfl⟩)
    | outOfBounds => exact Or.inr (Or.inr (Or.inl rfl))
    | ok out =>
      cases ha : NewByteArray env (outLenOf out) with
      | none => exact Or.inr (Or.inr (Or.inr (Or.inl ⟨out, rfl, ha⟩)))
      | some outArr => exact Or.inr (Or.inr (Or.inr (Or.inr ⟨out, outArr, rfl, ha⟩)))

/-! ## Histories -/

theorem logLines_append (a b : List Event) : logLines (a ++ b) = logLines a ++ logLines b := by
  induction a with
  | nil => rfl
  | cons e es ih => cases e <;> simp [logLines, ih]

theorem releaseCount_append (a b : List Event) :
    releaseCount (a ++ b) = releaseCount a + releaseCount b := by
  induction a with
  | nil => simp [releaseCount]
  | cons e es ih =>
    cases e <;> simp [releaseCount, ih]
    omega

theorem allocCount_append (a b : List Event) :
    allocCount (a ++ b) = allocCount a + allocCount b := by
  induction a with
  | nil => simp [allocCount]
  | cons e es ih =>
    cases e <;> simp [allocCount, ih]
    omega

theorem cvCallCount_append (a b : List Event) :
    cvCallCount (a ++ b) = cvCallCount a + cvCallCount b := by
  induction a with
  | nil => simp [cvCallCount]
  | cons e es ih =>
    cases e <;> simp [cvCallCount, ih]
    omega

theorem logLines_cvCalls (steps : List Step) : logLines (steps.map Event.cvCall) = [] := by
  induction steps with
  | nil => rfl
  | cons s ss ih => simpa [logLines] using ih

theorem releaseCount_cvCalls (steps : List Step) :
    releaseCount (steps.map Event.cvCall) = 0 := by
  induction steps with
  | nil => rfl
  | cons s ss ih => simpa [releaseCount] using ih

theorem pixelOffset_lt {w h y x c : Nat} (hy : y < h) (hx : x < w) (hc : c < 4) :
    pixelOffset w y x c < w * h * 4 := by
  unfold pixelOffset
  have h1 : y * (w * 4) + (w * 4) ≤ h * (w * 4) := by
    have : (y + 1) * (w * 4) ≤ h * (w * 4) := Nat.mul_le_mul_right _ hy
    rw [Nat.add_mul, Nat.one_mul] at this
    exact this
  have h2 : w * h * 4 = h * (w * 4) := by ring
  omega


/-! ## Facts shared by the statements below -/

/-- A frame that lies inside the input block is read inside it by every call of the
pipeline. -/
theorem pipeline_ne_outOfBounds (cv : OpenCV) {input : List Nat} {width height : Int}
    (h : pixelCount height width * 4 ≤ input.length) :
    (pipeline cv input width height).2 ≠ .outOfBounds := by
  have hhead : pixelCount (Mat.ofPointer height width 4 input).rows
      (Mat.ofPointer height width 4 input).cols * (Mat.ofPointer height width 4 input).channels
      ≤ (Mat.ofPointer height width 4 input).data.length := by
    simp only [Mat.ofPointer, List.length_take]
    omega
  have hedge : ∀ edges, (edgeMap cv input width height).2 = .ok edges →
      cvtColor cv edges .COLOR_GRAY2RGBA ≠ .outOfBounds := by
    intro edges he
    obtain ⟨-, -, er, ec, ech, el, -, -⟩ := edgeMap_ok he
    apply cvtColor_ne_outOfBounds
    rw [er, ec, ech, el]
    omega
  have hmap : (edgeMap cv input width height).2 ≠ .outOfBounds := by
    unfold edgeMap
    simp only
    split
    · simp
    · split
      · simp
      · rename_i h1
        exact absurd h1 (cvtColor_ne_outOfBounds cv _ hhead)
      · rename_i imgBGR h1
        split
        · simp
        · rename_i h2
          obtain ⟨-, -, r, c, -, l, ch⟩ := cvtColor_ok h1
          refine absurd h2 (cvtColor_ne_outOfBounds cv _ ?_)
          rw [l, r, c]
        · rename_i gray h2
          split
          · simp
          · rename_i h3
            exact absurd h3 (GaussianBlur_ne_outOfBounds _ _ _ _)
          · exact Canny_ne_outOfBounds _ _ _ _
  unfold pipeline
  split
  · rename_i steps edges heq
    exact hedge edges (by rw [heq])
  · simp
  · rename_i steps heq
    exact absurd (by rw [heq]) hmap

/-- With a frame longer than the input block, the first conversion (line 28) reads outside
the block, unless the library raises before it reads. -/
theorem pipeline_short (cv : OpenCV) {input : List Nat} {width height : Int}
    (hh : 0 < height) (hw : 0 < width) (hlen : input.length < pixelCount height width * 4)
    (r0 : cv.raises .matHeader (Mat.ofPointer height width 4 input) = none)
    (r1 : cv.raises (.cvtColor .COLOR_RGBA2BGR) (Mat.ofPointer height width 4 input) = none) :
    (pipeline cv input width height).2 = .outOfBounds := by
  have hb : (Mat.ofPointer height width 4 input).bytes = none := by
    apply Mat.bytes_of_lt
    simp only [Mat.ofPointer, List.length_take]
    omega
  have hpos : ¬ ((Mat.ofPointer height width 4 input).rows ≤ 0 ∨
      (Mat.ofPointer height width 4 input).cols ≤ 0) := by
    simp only [Mat.ofPointer]
    omega
  have hch : (Mat.ofPointer height width 4 input).channels = 3 ∨
      (Mat.ofPointer height width 4 input).channels = 4 := Or.inr rfl
  have hc : cvtColor cv (Mat.ofPointer height width 4 input) .COLOR_RGBA2BGR = .outOfBounds := by
    unfold cvtColor
    rw [r1]
    simp only
    rw [if_neg hpos, if_pos hch, hb]
  have hm : edgeMap cv input width height
      = ([.matHeader, .cvtColor .COLOR_RGBA2BGR], .outOfBounds) := by
    unfold edgeMap
    simp only [r0, hc]
  unfold pipeline
  rw [hm]

/-- The library calls see the input block only through the image header. -/
theorem pipeline_congr (cv : OpenCV) {a b : List Nat} {width height : Int}
    (h : Mat.ofPointer height width 4 a = Mat.ofPointer height width 4 b) :
    pipeline cv a width height = pipeline cv b width height := by
  simp only [pipeline, edgeMap, h]

/-- What a call that returns an array went through. -/
theorem processFrame_returned_some {env : JNIEnv} {cv : OpenCV} {input_ : jbyteArray}
    {width height : Int} {past : List Event} {arr : List Nat}
    (h : (Java_com_example_realtime_NativeBridge_processFrame env cv input_ width height
      past).outcome = .returned (some arr)) :
    ∃ out, (pipeline cv input_.elems width height).2 = .ok out ∧
      0 < height ∧ 0 < width ∧
      pixelCount height width * 4 ≤ input_.elems.length ∧
      out.data.length = pixelCount height width * 4 ∧
      outLenOf out = ((pixelCount height width * 4 : Nat) : Int) ∧
      arr = out.data ∧
      (Java_com_example_realtime_NativeBridge_processFrame env cv input_ width height
        past).history = past ++ [.GetArrayLength, .GetByteArrayElements] ++
          (pipeline cv input_.elems width height).1.map Event.cvCall ++
          [.NewByteArray (outLenOf out), .SetByteArrayRegion 0 (outLenOf out),
           .ReleaseByteArrayElements JNI_ABORT] := by
  rcases processFrame_paths env cv input_ width height with he | ⟨he, hp⟩
  · rw [processFrame_noElements cv input_ width height past he] at h
    cases h
  · rcases hp with ⟨what, hp⟩ | ⟨what, hp⟩ | hp | ⟨out, hp, ha⟩ | ⟨out, outArr, hp, ha⟩
    · rw [processFrame_cvException past he hp] at h
      cases h
    · rw [processFrame_otherException past he hp] at h
      cases h
    · rw [processFrame_outOfBounds past he hp] at h
      cases h
    · rw [processFrame_noMemory past he hp ha] at h
      cases h
    · rw [processFrame_success past he hp ha] at h
      obtain ⟨hh, hw, hr, hc, hch, hl, hin⟩ := pipeline_ok_shape hp
      have hfit : pixelCount height width * 4 < 2 ^ 31 := by
        have := input_.size_lt
        omega
      have hL := outLenOf_of_fit hr hc hch hh hw hfit
      have harr : arr = out.data.take (outLenOf out).toNat := by
        simp only [Outcome.returned.injEq, Option.some.injEq] at h
        exact h.symm
      refine ⟨out, hp, hh, hw, hin, hl, hL, ?_, ?_⟩
      · rw [harr, hL, Int.toNat_ofNat, ← hl, List.take_length]
      · rw [processFrame_success past he hp ha]


/-! ## C1: length of the returned array -/

/-- C1: whenever the call returns an array, for whatever width, height and input array, the
length of the returned array is `width * height * 4`.  A frame whose byte count does not
fit a 32-bit `int` is longer than any Java array, so a call on it reads outside its input
and returns no array. -/
theorem processFrame_length (env : JNIEnv) (cv : OpenCV) (input_ : jbyteArray)
    (width height : Int) (past : List Event) (arr : List Nat)
    (h : (Java_com_example_realtime_NativeBridge_processFrame env cv input_ width height
      past).outcome = .returned (some arr)) :
    (arr.length : Int) = width * height * 4 := by
  obtain ⟨out, -, hh, hw, -, hl, -, harr, -⟩ := processFrame_returned_some h
  rw [harr, hl, pixelCount_mul_four hh hw]

/-- Concrete instance on a 2 x 2 frame with two marked pixels. -/
theorem processFrame_length_witness :
    (Java_com_example_realtime_NativeBridge_processFrame JNIEnv.granting OpenCV.marking
        jbyteArray.split 2 2 []).outcome
      = .returned (some [0, 0, 0, 255, 255, 255, 255, 255, 0, 0, 0, 255, 255, 255, 255, 255]) ∧
    (([0, 0, 0, 255, 255, 255, 255, 255, 0, 0, 0, 255, 255, 255, 255, 255] : List Nat).length
      : Int) = 2 * 2 * 4 :=
  ⟨by decide,
   processFrame_length JNIEnv.granting OpenCV.marking jbyteArray.split 2 2 []
     [0, 0, 0, 255, 255, 255, 255, 255, 0, 0, 0, 255, 255, 255, 255, 255] (by decide)⟩

/-! ## C2: channel layout of the returned pixels -/

/-- C2, as stated, fails: a 2 x 2 frame of one colour, which holds no edge, comes back as
four pixels 0, 0, 0, 255; in pixel 0 the colour bytes carry the edge intensity 0 but the
alpha byte is 255. -/
theorem processFrame_alpha_not_intensity :
    (Java_com_example_realtime_NativeBridge_processFrame JNIEnv.granting OpenCV.quiet
        jbyteArray.flat 2 2 []).outcome
      = .returned (some [0, 0, 0, 255, 0, 0, 0, 255, 0, 0, 0, 255, 0, 0, 0, 255]) ∧
    ([0, 0, 0, 255, 0, 0, 0, 255, 0, 0, 0, 255, 0, 0, 0, 255] : List Nat)[4 * 0]?
      ≠ ([0, 0, 0, 255, 0, 0, 0, 255, 0, 0, 0, 255, 0, 0, 0, 255] : List Nat)[4 * 0 + 3]? := by
  decide

/-- C2, amended: whenever the call returns an array, the edge detection of lines 24-42
completed with an edge map, the result of the Canny call with thresholds 50 and 150, and
for every pixel index `i < width * height` the R, G and B bytes of pixel `i` of the array
all equal the value of the edge map at `i`, while the alpha byte of pixel `i` is 255. -/
theorem processFrame_pixel_bytes (env : JNIEnv) (cv : OpenCV) (input_ : jbyteArray)
    (width height : Int) (past : List Event) (arr : List Nat)
    (h : (Java_com_example_realtime_NativeBridge_processFrame env cv input_ width height
      past).outcome = .returned (some arr)) :
    ∃ edges, (edgeMap cv input_.elems width height).2 = .ok edges ∧
      (∃ blurred, Canny cv blurred 50 150 = .ok edges) ∧
      ∀ i : Nat, (i : Int) < width * height →
        ∃ v, edges.data[i]? = some v ∧
          arr[4 * i]? = some v ∧ arr[4 * i + 1]? = some v ∧ arr[4 * i + 2]? = some v ∧
          arr[4 * i + 3]? = some 255 := by
  obtain ⟨out, hp, hh, hw, -, -, -, harr, -⟩ := processFrame_returned_some h
  obtain ⟨edges, he, hc⟩ := pipeline_ok hp
  obtain ⟨-, -, er, ec, -, el, -, hcanny⟩ := edgeMap_ok he
  obtain ⟨-, hdata⟩ := cvtColor_gray2rgba hc
  rw [er, ec] at hdata
  refine ⟨edges, he, hcanny, ?_⟩
  intro i hi
  have hn : i < pixelCount height width := by
    have h4 := pixelCount_mul_four hh hw
    have : ((pixelCount height width : Nat) : Int) = width * height := by
      push_cast at h4
      omega
    omega
  have hie : i < edges.data.length := by rw [el]; exact hn
  refine ⟨edges.data[i], List.getElem?_eq_getElem hie, ?_, ?_, ?_, ?_⟩
  all_goals rw [harr, hdata, List.getElem?_map, List.getElem?_range (by omega)]
  · have m : (4 * i) % 4 < 3 := by omega
    have d : (4 * i) / 4 = i := by omega
    simp [m, d, List.getD_eq_getElem?_getD, List.getElem?_eq_getElem hie]
  · have m : (4 * i + 1) % 4 < 3 := by omega
    have d : (4 * i + 1) / 4 = i := by omega
    simp [m, d, List.getD_eq_getElem?_getD, List.getElem?_eq_getElem hie]
  · have m : (4 * i + 2) % 4 < 3 := by omega
    have d : (4 * i + 2) / 4 = i := by omega
    simp [m, d, List.getD_eq_getElem?_getD, List.getElem?_eq_getElem hie]
  · have m : ¬ (4 * i + 3) % 4 < 3 := by omega
    simp [m]

/-- Concrete instance on a 2 x 2 frame whose edge map holds both marked and unmarked
pixels. -/
theorem processFrame_pixel_bytes_witness :
    (Java_com_example_realtime_NativeBridge_processFrame JNIEnv.granting OpenCV.marking
        jbyteArray.split 2 2 []).outcome
      = .returned (some [0, 0, 0, 255, 255, 255, 255, 255, 0, 0, 0, 255, 255, 255, 255, 255]) ∧
    ∃ edges, (edgeMap OpenCV.marking jbyteArray.split.elems 2 2).2 = .ok edges ∧
      (∃ blurred, Canny OpenCV.marking blurred 50 150 = .ok edges) ∧
      ∀ i : Nat, (i : Int) < 2 * 2 →
        ∃ v, edges.data[i]? = some v ∧
          ([0, 0, 0, 255, 255, 255, 255, 255, 0, 0, 0, 255, 255, 255, 255, 255]
            : List Nat)[4 * i]? = some v ∧
          ([0, 0, 0, 255, 255, 255, 255, 255, 0, 0, 0, 255, 255, 255, 255, 255]
            : List Nat)[4 * i + 1]? = some v ∧
          ([0, 0, 0, 255, 255, 255, 255, 255, 0, 0, 0, 255, 255, 255, 255, 255]
            : List Nat)[4 * i + 2]? = some v ∧
          ([0, 0, 0, 255, 255, 255, 255, 255, 0, 0, 0, 255, 255, 255, 255, 255]
            : List Nat)[4 * i + 3]? = some 255 :=
  ⟨by decide,
   processFrame_pixel_bytes JNIEnv.granting OpenCV.marking jbyteArray.split 2 2 []
     [0, 0, 0, 255, 255, 255, 255, 255, 0, 0, 0, 255, 255, 255, 255, 255] (by decide)⟩

/-! ## C3: failed acquisition of the input elements -/

/-- C3: when `GetByteArrayElements` returns null the call returns null, and what it adds to
the history is the two queries on the input array and one error line: no `NewByteArray`
and no library call. -/
theorem processFrame_elements_null (env : JNIEnv) (cv : OpenCV) (input_ : jbyteArray)
    (width height : Int) (past : List Event)
    (h : GetByteArrayElements env input_ = none) :
    (Java_com_example_realtime_NativeBridge_processFrame env cv input_ width height
      past).outcome = .returned none ∧
    (Java_com_example_realtime_NativeBridge_processFrame env cv input_ width height
      past).history =
      past ++ [.GetArrayLength, .GetByteArrayElements,
               LOGE "Failed to get input array elements"] ∧
    allocCount (Java_com_example_realtime_NativeBridge_processFrame env cv input_ width height
      past).history = allocCount past ∧
    cvCallCount (Java_com_example_realtime_NativeBridge_processFrame env cv input_ width height
      past).history = cvCallCount past := by
  have he : env.elementsAvailable = false := by
    unfold GetByteArrayElements at h
    cases hb : env.elementsAvailable with
    | false => rfl
    | true => rw [hb] at h; simp at h
  rw [processFrame_noElements cv input_ width height past he]
  refine ⟨rfl, by simp, ?_, ?_⟩
  · simp [allocCount_append, allocCount, LOGE]
  · simp [cvCallCount_append, cvCallCount, LOGE]

/-- Concrete instance with a runtime that hands out no pointer. -/
theorem processFrame_elements_null_witness :
    GetByteArrayElements JNIEnv.noElements jbyteArray.pixel = none ∧
      ((Java_com_example_realtime_NativeBridge_processFrame JNIEnv.noElements OpenCV.quiet
          jbyteArray.pixel 1 1 []).outcome = .returned none ∧
       (Java_com_example_realtime_NativeBridge_processFrame JNIEnv.noElements OpenCV.quiet
          jbyteArray.pixel 1 1 []).history =
          [] ++ [.GetArrayLength, .GetByteArrayElements,
                 LOGE "Failed to get input array elements"] ∧
       allocCount (Java_com_example_realtime_NativeBridge_processFrame JNIEnv.noElements
          OpenCV.quiet jbyteArray.pixel 1 1 []).history = allocCount [] ∧
       cvCallCount (Java_com_example_realtime_NativeBridge_processFrame JNIEnv.noElements
          OpenCV.quiet jbyteArray.pixel 1 1 []).history = cvCallCount []) :=
  ⟨rfl,
   processFrame_elements_null JNIEnv.noElements OpenCV.quiet jbyteArray.pixel 1 1 [] rfl⟩

/-! ## C4: which failures are absorbed -/

/-- C4, as stated, fails: when the Canny call raises an exception that is not a
`cv::Exception` (here `std::bad_alloc`), the handler of line 62 does not match and the
exception leaves the function instead of a null result. -/
theorem processFrame_foreign_exception_escapes :
    (Java_com_example_realtime_NativeBridge_processFrame JNIEnv.granting OpenCV.cannyBadAlloc
        jbyteArray.pixel 1 1 []).outcome = .propagated (.other "std::bad_alloc") ∧
      (Java_com_example_realtime_NativeBridge_processFrame JNIEnv.granting OpenCV.cannyBadAlloc
        jbyteArray.pixel 1 1 []).outcome ≠ .returned none := by
  decide

/-- C4, amended: if input acquisition fails, or a library call raises a `cv::Exception`, or
the output allocation fails, the call returns null; in particular no C++ exception leaves
the function on these paths. -/
theorem processFrame_absorbs (env : JNIEnv) (cv : OpenCV) (input_ : jbyteArray)
    (width height : Int) (past : List Event)
    (h : GetByteArrayElements env input_ = none ∨
      (∃ what, (pipeline cv input_.elems width height).2 = .error (.cvException what)) ∨
      (∃ out, (pipeline cv input_.elems width height).2 = .ok out ∧
        NewByteArray env (outLenOf out) = none)) :
    (Java_com_example_realtime_NativeBridge_processFrame env cv input_ width height
      past).outcome = .returned none := by
  cases he : env.elementsAvailable with
  | false => rw [processFrame_noElements cv input_ width height past he]
  | true =>
    rcases h with h | ⟨what, hp⟩ | ⟨out, hp, ha⟩
    · simp [GetByteArrayElements, he] at h
    · rw [processFrame_cvException past he hp]
    · rw [processFrame_noMemory past he hp ha]

/-- Concrete instance: the Canny call raises a `cv::Exception`. -/
theorem processFrame_absorbs_witness :
    (GetByteArrayElements JNIEnv.granting jbyteArray.pixel = none ∨
      (∃ what, (pipeline (OpenCV.cannyFails "boom") jbyteArray.pixel.elems 1 1).2
        = .error (.cvException what)) ∨
      (∃ out, (pipeline (OpenCV.cannyFails "boom") jbyteArray.pixel.elems 1 1).2 = .ok out ∧
        NewByteArray JNIEnv.granting (outLenOf out) = none)) ∧
      (Java_com_example_realtime_NativeBridge_processFrame JNIEnv.granting
        (OpenCV.cannyFails "boom") jbyteArray.pixel 1 1 []).outcome = .returned none :=
  ⟨Or.inr (Or.inl ⟨"boom", rfl⟩),
   processFrame_absorbs JNIEnv.granting (OpenCV.cannyFails "boom") jbyteArray.pixel 1 1 []
     (Or.inr (Or.inl ⟨"boom", rfl⟩))⟩

/-! ## C5: release of the input buffer -/

/-- C5, as stated, fails on the early return: when the element pointer cannot be obtained
the call returns null without any release, so the release count is 0, not 1. -/
theorem processFrame_early_return_no_release :
    (Java_com_example_realtime_NativeBridge_processFrame JNIEnv.noElements OpenCV.quiet
        jbyteArray.pixel 1 1 []).outcome = .returned none ∧
      releaseCount (Java_com_example_realtime_NativeBridge_processFrame JNIEnv.noElements
        OpenCV.quiet jbyteArray.pixel 1 1 []).history = 0 := by
  decide

/-- C5, amended: on every path on which the call returns, the input buffer is released
exactly once if its elements were acquired (success, allocation failure, `cv::Exception`)
and not at all if the acquisition failed (the early return). -/
theorem processFrame_release (env : JNIEnv) (cv : OpenCV) (input_ : jbyteArray)
    (width height : Int) (past : List Event) (r : Option (List Nat))
    (h : (Java_com_example_realtime_NativeBridge_processFrame env cv input_ width height
      past).outcome = .returned r) :
    releaseCount (Java_com_example_realtime_NativeBridge_processFrame env cv input_ width
      height past).history =
      releaseCount past + (if env.elementsAvailable = true then 1 else 0) := by
  rcases processFrame_paths env cv input_ width height with he | ⟨he, hp⟩
  · rw [processFrame_noElements cv input_ width height past he]
    simp [releaseCount_append, releaseCount, he, LOGE]
  · rcases hp with ⟨what, hp⟩ | ⟨what, hp⟩ | hp | ⟨out, hp, ha⟩ | ⟨out, outArr, hp, ha⟩
    · rw [processFrame_cvException past he hp]
      simp [releaseCount_append, releaseCount, releaseCount_cvCalls, he, LOGE]
    · rw [processFrame_otherException past he hp] at h
      cases h
    · rw [processFrame_outOfBounds past he hp] at h
      cases h
    · rw [processFrame_noMemory past he hp ha]
      simp [releaseCount_append, releaseCount, releaseCount_cvCalls, he, LOGE]
    · rw [processFrame_success past he hp ha]
      simp [releaseCount_append, releaseCount, releaseCount_cvCalls, he]

/-- Concrete instance on the allocation-failure path. -/
theorem processFrame_release_witness :
    (Java_com_example_realtime_NativeBridge_processFrame JNIEnv.noMemory OpenCV.quiet
        jbyteArray.pixel 1 1 []).outcome = .returned none ∧
      releaseCount (Java_com_example_realtime_NativeBridge_processFrame JNIEnv.noMemory
        OpenCV.quiet jbyteArray.pixel 1 1 []).history =
        releaseCount [] + (if JNIEnv.noMemory.elementsAvailable = true then 1 else 0) :=
  ⟨by decide,
   processFrame_release JNIEnv.noMemory OpenCV.quiet jbyteArray.pixel 1 1 [] none
     (by decide)⟩


/-! ## C9: logging -/

/-- C9, as stated, fails: when the Canny call raises an exception that is not a
`cv::Exception`, the call fails (the exception leaves the function) and no log line is
written. -/
theorem processFrame_foreign_exception_silent :
    (Java_com_example_realtime_NativeBridge_processFrame JNIEnv.granting OpenCV.cannyBadAlloc
        jbyteArray.flat 2 2 []).outcome = .propagated (.other "std::bad_alloc") ∧
      logLines (Java_com_example_realtime_NativeBridge_processFrame JNIEnv.granting
        OpenCV.cannyBadAlloc jbyteArray.flat 2 2 []).history = [] := by
  decide

/-- C9, amended: a call that returns an array adds no log line; a call that returns null
(failed input acquisition, failed output allocation, a `cv::Exception` raised in the
pipeline) adds exactly one line, of error priority and tagged `NativeLib`; the line says
which failure occurred, and for a `cv::Exception` it carries the text of `what()`. -/
theorem processFrame_logging (env : JNIEnv) (cv : OpenCV) (input_ : jbyteArray)
    (width height : Int) (past : List Event) :
    (∀ arr, (Java_com_example_realtime_NativeBridge_processFrame env cv input_ width height
        past).outcome = .returned (some arr) →
      logLines (Java_com_example_realtime_NativeBridge_processFrame env cv input_ width height
        past).history = logLines past) ∧
    ((Java_com_example_realtime_NativeBridge_processFrame env cv input_ width height
        past).outcome = .returned none →
      ∃ msg, logLines (Java_com_example_realtime_NativeBridge_processFrame env cv input_ width
        height past).history = logLines past ++ [(LogPriority.ANDROID_LOG_ERROR, TAG, msg)]) ∧
    (GetByteArrayElements env input_ = none →
      logLines (Java_com_example_realtime_NativeBridge_processFrame env cv input_ width height
        past).history = logLines past ++
          [(LogPriority.ANDROID_LOG_ERROR, TAG, "Failed to get input array elements")]) ∧
    (∀ what, env.elementsAvailable = true →
      (pipeline cv input_.elems width height).2 = .error (.cvException what) →
      logLines (Java_com_example_realtime_NativeBridge_processFrame env cv input_ width height
        past).history = logLines past ++
          [(LogPriority.ANDROID_LOG_ERROR, TAG, "OpenCV exception: " ++ what)]) ∧
    (∀ out, env.elementsAvailable = true →
      (pipeline cv input_.elems width height).2 = .ok out →
      NewByteArray env (outLenOf out) = none →
      logLines (Java_com_example_realtime_NativeBridge_processFrame env cv input_ width height
        past).history = logLines past ++
          [(LogPriority.ANDROID_LOG_ERROR, TAG, "Failed to allocate output array")]) := by
  refine ⟨?_, ?_, ?_, ?_, ?_⟩
  · intro arr h
    obtain ⟨out, -, -, -, -, -, -, -, hhist⟩ := processFrame_returned_some h
    rw [hhist]
    simp [logLines_append, logLines, logLines_cvCalls]
  · intro h
    rcases processFrame_paths env cv input_ width height with he | ⟨he, hp⟩
    · rw [processFrame_noElements cv input_ width height past he]
      exact ⟨"Failed to get input array elements", by simp [logLines_append, logLines, LOGE]⟩
    · rcases hp with ⟨what, hp⟩ | ⟨what, hp⟩ | hp | ⟨out, hp, ha⟩ | ⟨out, outArr, hp, ha⟩
      · rw [processFrame_cvException past he hp]
        exact ⟨"OpenCV exception: " ++ what,
          by simp [logLines_append, logLines, logLines_cvCalls, LOGE]⟩
      · rw [processFrame_otherException past he hp] at h
        cases h
      · rw [processFrame_outOfBounds past he hp] at h
        cases h
      · rw [processFrame_noMemory past he hp ha]
        exact ⟨"Failed to allocate output array",
          by simp [logLines_append, logLines, logLines_cvCalls, LOGE]⟩
      · rw [processFrame_success past he hp ha] at h
        cases h
  · intro h
    have he : env.elementsAvailable = false := by
      cases hb : env.elementsAvailable with
      | false => rfl
      | true => simp [GetByteArrayElements, hb] at h
    rw [processFrame_noElements cv input_ width height past he]
    simp [logLines_append, logLines, LOGE]
  · intro what he hp
    rw [processFrame_cvException past he hp]
    simp [logLines_append, logLines, logLines_cvCalls, LOGE]
  · intro out he hp ha
    rw [processFrame_noMemory past he hp ha]
    simp [logLines_append, logLines, logLines_cvCalls, LOGE]

/-- Concrete instance: a library exception with text `boom`. -/
theorem processFrame_logging_witness :
    logLines (Java_com_example_realtime_NativeBridge_processFrame JNIEnv.granting
        (OpenCV.cannyFails "boom") jbyteArray.flat 2 2 []).history
      = logLines [] ++ [(LogPriority.ANDROID_LOG_ERROR, TAG, "OpenCV exception: " ++ "boom")] :=
  (processFrame_logging JNIEnv.granting (OpenCV.cannyFails "boom") jbyteArray.flat 2 2
    []).2.2.2.1 "boom" rfl rfl

/-! ## C10: bounds of the reads and of the copy -/

/-- C10: the function does not validate the array length against the dimensions: with an
array shorter than the frame it still enters the pipeline and, unless the library raises
first, reads outside the array at line 28; an array longer than the frame is processed as
if the extra bytes were absent.  For positive width and height and an array of exactly
`width * height * 4` bytes, every byte of the dense RGBA view is read inside the array and
the call never reads outside it; and when it returns an array, line 58 copied exactly as
many bytes as the array allocated at line 50 holds, from index 0, inside both the array
and the RGBA image. -/
theorem processFrame_buffer_bounds (env : JNIEnv) (cv : OpenCV) (input_ : jbyteArray)
    (w h : Nat) (past : List Event) (hw : 0 < w) (hh : 0 < h)
    (hlen : input_.elems.length = w * h * 4) :
    (∀ y x c, y < h → x < w → c < 4 →
      ∃ b, (Mat.ofPointer h w 4 input_.elems).readByte (pixelOffset w y x c) = some b) ∧
    (Java_com_example_realtime_NativeBridge_processFrame env cv input_ w h past).outcome
      ≠ .outOfBoundsRead ∧
    (∀ arr, (Java_com_example_realtime_NativeBridge_processFrame env cv input_ w h
        past).outcome = .returned (some arr) →
      ∃ out, (pipeline cv input_.elems w h).2 = .ok out ∧
        out.data.length = arr.length ∧
        SetByteArrayRegion (List.replicate arr.length 0) 0 arr.length out.data
          = .copied arr ∧
        (Java_com_example_realtime_NativeBridge_processFrame env cv input_ w h past).history
          = past ++ [.GetArrayLength, .GetByteArrayElements] ++
            (pipeline cv input_.elems w h).1.map Event.cvCall ++
            [.NewByteArray arr.length, .SetByteArrayRegion 0 arr.length,
             .ReleaseByteArrayElements JNI_ABORT]) ∧
    (∀ short : jbyteArray, short.elems.length < w * h * 4 →
      env.elementsAvailable = true →
      cv.raises .matHeader (Mat.ofPointer h w 4 short.elems) = none →
      cv.raises (.cvtColor .COLOR_RGBA2BGR) (Mat.ofPointer h w 4 short.elems) = none →
      (Java_com_example_realtime_NativeBridge_processFrame env cv short w h past).outcome
        = .outOfBoundsRead) ∧
    (∀ long : jbyteArray, (∃ extra, long.elems = input_.elems ++ extra) →
      Java_com_example_realtime_NativeBridge_processFrame env cv long w h past
        = Java_com_example_realtime_NativeBridge_processFrame env cv input_ w h past) := by
  have hpc : pixelCount (h : Int) (w : Int) * 4 = w * h * 4 := by
    simp only [pixelCount, Int.toNat_ofNat]
    rw [Nat.mul_comm h w]
  have hhi : (0 : Int) < (h : Int) := by exact_mod_cast hh
  have hwi : (0 : Int) < (w : Int) := by exact_mod_cast hw
  refine ⟨?_, ?_, ?_, ?_, ?_⟩
  · intro y x c hy hx hc
    have hlt : pixelOffset w y x c < input_.elems.length := by
      rw [hlen]
      exact pixelOffset_lt hy hx hc
    refine ⟨input_.elems[pixelOffset w y x c], ?_⟩
    simp only [Mat.readByte, Mat.ofPointer, hpc, ← hlen, List.take_length]
    exact List.getElem?_eq_getElem hlt
  · have hne : (pipeline cv input_.elems w h).2 ≠ .outOfBounds :=
      pipeline_ne_outOfBounds cv (by rw [hpc, hlen])
    rcases processFrame_paths env cv input_ w h with he | ⟨he, hp⟩
    · rw [processFrame_noElements cv input_ w h past he]
      simp
    · rcases hp with ⟨what, hp⟩ | ⟨what, hp⟩ | hp | ⟨out, hp, ha⟩ | ⟨out, outArr, hp, ha⟩
      · rw [processFrame_cvException past he hp]
        simp
      · rw [processFrame_otherException past he hp]
        simp
      · exact absurd hp hne
      · rw [processFrame_noMemory past he hp ha]
        simp
      · rw [processFrame_success past he hp ha]
        simp
  · intro arr harr
    obtain ⟨out, hp, -, -, -, hl, hL, ha, hhist⟩ := processFrame_returned_some harr
    have hal : arr.length = pixelCount (h : Int) (w : Int) * 4 := by rw [ha, hl]
    refine ⟨out, hp, by rw [ha], ?_, ?_⟩
    · have h0 : (0 : Int) ≤ ((arr.length : Nat) : Int) := Int.ofNat_nonneg _
      have hb : ((arr.length : Nat) : Int).toNat ≤ out.data.length := by
        rw [Int.toNat_ofNat, ha]
      have := SetByteArrayRegion_fresh h0 hb
      rw [Int.toNat_ofNat] at this
      rw [this, ha, List.take_length]
    · rw [hhist, hL, hal]
  · intro short hshort he r0 r1
    have hp := pipeline_short cv hhi hwi (by rw [hpc]; exact hshort) r0 r1
    rw [processFrame_outOfBounds past he hp]
  · intro long hlong
    obtain ⟨extra, hex⟩ := hlong
    have hm : Mat.ofPointer (h : Int) (w : Int) 4 long.elems
        = Mat.ofPointer (h : Int) (w : Int) 4 input_.elems := by
      simp only [Mat.ofPointer, hpc, hex, ← hlen, List.take_left, List.take_length]
    have hp := pipeline_congr cv hm
    cases he : env.elementsAvailable <;>
      simp [Java_com_example_realtime_NativeBridge_processFrame, GetByteArrayElements, he, hp]

/-- Concrete instance on a 2 x 2 frame of sixteen bytes; the short array is the one-pixel
frame, the long array is the frame itself. -/
theorem processFrame_buffer_bounds_witness :
    (0 < 2 ∧ 0 < 2 ∧ jbyteArray.flat.elems.length = 2 * 2 * 4) ∧
    ((∀ y x c, y < 2 → x < 2 → c < 4 →
      ∃ b, (Mat.ofPointer ((2 : Nat) : Int) ((2 : Nat) : Int) 4
        jbyteArray.flat.elems).readByte (pixelOffset 2 y x c) = some b) ∧
    (Java_com_example_realtime_NativeBridge_processFrame JNIEnv.granting OpenCV.quiet
      jbyteArray.flat ((2 : Nat) : Int) ((2 : Nat) : Int) []).outcome ≠ .outOfBoundsRead ∧
    (∀ arr, (Java_com_example_realtime_NativeBridge_processFrame JNIEnv.granting OpenCV.quiet
        jbyteArray.flat ((2 : Nat) : Int) ((2 : Nat) : Int) []).outcome
          = .returned (some arr) →
      ∃ out, (pipeline OpenCV.quiet jbyteArray.flat.elems ((2 : Nat) : Int)
          ((2 : Nat) : Int)).2 = .ok out ∧
        out.data.length = arr.length ∧
        SetByteArrayRegion (List.replicate arr.length 0) 0 arr.length out.data
          = .copied arr ∧
        (Java_com_example_realtime_NativeBridge_processFrame JNIEnv.granting OpenCV.quiet
          jbyteArray.flat ((2 : Nat) : Int) ((2 : Nat) : Int) []).history
          = [] ++ [.GetArrayLength, .GetByteArrayElements] ++
            (pipeline OpenCV.quiet jbyteArray.flat.elems ((2 : Nat) : Int)
              ((2 : Nat) : Int)).1.map Event.cvCall ++
            [.NewByteArray arr.length, .SetByteArrayRegion 0 arr.length,
             .ReleaseByteArrayElements JNI_ABORT]) ∧
    (∀ short : jbyteArray, short.elems.length < 2 * 2 * 4 →
      JNIEnv.granting.elementsAvailable = true →
      OpenCV.quiet.raises .matHeader
        (Mat.ofPointer ((2 : Nat) : Int) ((2 : Nat) : Int) 4 short.elems) = none →
      OpenCV.quiet.raises (.cvtColor .COLOR_RGBA2BGR)
        (Mat.ofPointer ((2 : Nat) : Int) ((2 : Nat) : Int) 4 short.elems) = none →
      (Java_com_example_realtime_NativeBridge_processFrame JNIEnv.granting OpenCV.quiet short
        ((2 : Nat) : Int) ((2 : Nat) : Int) []).outcome = .outOfBoundsRead) ∧
    (∀ long : jbyteArray, (∃ extra, long.elems = jbyteArray.flat.elems ++ extra) →
      Java_com_example_realtime_NativeBridge_processFrame JNIEnv.granting OpenCV.quiet long
          ((2 : Nat) : Int) ((2 : Nat) : Int) []
        = Java_com_example_realtime_NativeBridge_processFrame JNIEnv.granting OpenCV.quiet
          jbyteArray.flat ((2 : Nat) : Int) ((2 : Nat) : Int) [])) :=
  ⟨by decide,
   processFrame_buffer_bounds JNIEnv.granting OpenCV.quiet jbyteArray.flat 2 2 []
     (by decide) (by decide) (by decide)⟩

end NativeLib
